import Mathlib

/-!
Verification development for the slack-keeper repository.

Part 1 embeds src/src/sync.js (the daily-full-sync script) as executable Lean
definitions: the Supabase tables become association lists with upsert-by-key
semantics, the Slack Web API becomes an oracle record (SlackEnv), and the
paginated while-loops become structural recursion over the list of page
results the oracle would return.  Instrumentation fields (userFetchLog,
historyFetchLog, threadFetchLog) record which remote requests were issued so
that claims about request counts can be stated.

Part 2 (namespace SyncFinal) models the run-anchored recheck-buffer strategy.
The repository documents that strategy (src/unnamed/part_000, which is the
README of src/sync-final.js, and db/20260103-messages-alter-sync-add.sql) but
the script itself is absent from src/, so those definitions are modelled from
the spec and are marked as such in their doc comments.
-/

/-- A Slack user profile object as returned by users.info.  The raw_json
payload is uninterpreted to the algorithm and is not modelled. -/
structure SlackProfile where
  display_name : Option String
  email : Option String
deriving Repr, DecidableEq

/-- A Slack user as consumed by sync.js.  Fields that may be absent in the
JSON are Options; updated is the monotonic counter used by syncUser. -/
structure SlackUser where
  id : String
  team_id : Option String
  name : Option String
  real_name : Option String
  profile : Option SlackProfile
  deleted : Bool
  is_bot : Bool
  is_admin : Bool
  is_owner : Bool
  updated : Option Int
deriving Repr, DecidableEq

/-- A Slack message as returned by conversations.history or
conversations.replies.  ts is the platform timestamp string (the identity);
tsNum models Math.floor(parseFloat(ts)), the integral-second value that
sync.js round-trips through the timestamp column.  reply_count is none when
the field is absent from the JSON. -/
structure SlackMessage where
  ts : String
  tsNum : Int
  user : Option String
  text : Option String
  thread_ts : Option String
  edited_ts : Option String
  reply_count : Option Nat
deriving Repr, DecidableEq

/-- A row of the messages table (db/20260102-messages-table.sql plus the
edited_timestamp column).  The timestamp column is an ISO string in the
database; it is modelled by its integral-second value timestampSec, which is
what getLastSyncTime / getOldestTimestamp read back.  raw_json is uninterpreted and
not modelled. -/
structure MessageRow where
  id : String
  channel_id : String
  channel_name : String
  user_id : Option String
  username : Option String
  text : String
  timestampSec : Int
  thread_ts : Option String
  edited_ts : Option String
deriving Repr, DecidableEq

/-- A row of the users table (db/20260103-users-table.sql).  raw_json is
uninterpreted and not modelled. -/
structure UserRow where
  id : String
  team_id : Option String
  name : Option String
  real_name : Option String
  display_name : Option String
  email : Option String
  deleted : Bool
  is_bot : Bool
  is_admin : Bool
  is_owner : Bool
  updated : Option Int
deriving Repr, DecidableEq

/-- A row of the sync_log table used by sync.js (SYNC_STRATEGY.md variant,
keyed by calendar date). -/
structure SyncLogRow where
  sync_date : String
  completed_at : Int
  total_messages : Nat
  total_replies : Nat
  channels_processed : Nat
deriving Repr, DecidableEq

/-- An entry of the usersCache Map in sync.js.  The lastChecked field of the
source (set to Date.now() and never read) is omitted. -/
structure CacheEntry where
  slackUser : SlackUser
  dbSynced : Bool
deriving Repr, DecidableEq

/-- Result of one users.info request: a response with ok and a user, a
response without them (the code falls through and returns null), or a thrown
error (caught, logged, null returned).  The latter two behave identically in
getUser: nothing is cached. -/
inductive FetchUserResult where
  | ok (user : SlackUser)
  | notOk
  | thrown
deriving Repr, DecidableEq

/-- One page returned by conversations.history or conversations.replies.
The next_cursor is implicit in the position within the page list. -/
structure HistoryPage where
  messages : List SlackMessage
  has_more : Bool
deriving Repr, DecidableEq

/-- Outcome of the conversations.join attempt in syncChannel, classified the
way sync.js pattern-matches err.data.error. -/
inductive JoinResult where
  | joined
  | alreadyInChannel
  | methodNotSupported
  | channelNotFound
  | otherFailure
deriving Repr, DecidableEq

/-- A channel as returned by conversations.list, together with the outcome
the join attempt for it would have (an oracle input). -/
structure ChannelInfo where
  id : String
  name : Option String
  joinResult : JoinResult
deriving Repr, DecidableEq

/-- The configuration environment of sync.js: RECHECK_DAYS (default 3) and
FULL_SYNC_DAYS (default 90). -/
structure EnvConfig where
  RECHECK_DAYS : Int := 3
  FULL_SYNC_DAYS : Int := 90
deriving Repr, DecidableEq

/-- The Slack Web API as an oracle.  userInfo takes the user id and the
number of users.info requests already made for that id in this run (so a
failing first request may be followed by a succeeding one).  historyPages
gives, per channel and oldest bound, the successive results of the
conversations.history pagination requests; threadPages likewise for
conversations.replies per channel and thread timestamp.  Except.error is a
request that failed (thrown). -/
structure SlackEnv where
  userInfo : String → Nat → FetchUserResult
  historyPages : String → Int → List (Except Unit HistoryPage)
  threadPages : String → String → List (Except Unit HistoryPage)

/-- The mutable world of one sync.js process: the usersCache Map, the three
Supabase tables, and instrumentation logs of the remote requests issued. -/
structure SyncState where
  usersCache : List (String × CacheEntry)
  dbUsers : List UserRow
  dbMessages : List MessageRow
  dbSyncLog : List SyncLogRow
  userFetchLog : List String
  historyFetchLog : List String
  threadFetchLog : List String
deriving Repr, DecidableEq

/-- The state at process start: empty cache, empty logs; table contents are
whatever the store holds. -/
def emptyState : SyncState :=
  { usersCache := [], dbUsers := [], dbMessages := [], dbSyncLog := [],
    userFetchLog := [], historyFetchLog := [], threadFetchLog := [] }

/-- Map.get on the usersCache. -/
def cacheLookup (cache : List (String × CacheEntry)) (userId : String) :
    Option CacheEntry :=
  (cache.find? (fun p => p.1 == userId)).map (·.2)

/-- Map.set on the usersCache: replace in place or append. -/
def cacheSet (cache : List (String × CacheEntry)) (userId : String)
    (e : CacheEntry) : List (String × CacheEntry) :=
  if cache.any (fun p => p.1 == userId) then
    cache.map (fun p => if p.1 == userId then (p.1, e) else p)
  else
    cache ++ [(userId, e)]

/-- select from users where id = ... single(). -/
def findUserRow (rows : List UserRow) (userId : String) : Option UserRow :=
  rows.find? (fun r => r.id == userId)

/-- upsert into users with onConflict id. -/
def upsertUserRow (rows : List UserRow) (r : UserRow) : List UserRow :=
  if rows.any (fun x => x.id == r.id) then
    rows.map (fun x => if x.id == r.id then r else x)
  else
    rows ++ [r]

/-- upsert into messages with onConflict id. -/
def upsertMessageRow (rows : List MessageRow) (r : MessageRow) :
    List MessageRow :=
  if rows.any (fun x => x.id == r.id) then
    rows.map (fun x => if x.id == r.id then r else x)
  else
    rows ++ [r]

/-- JS truthiness of message.user: the field is present and non-empty. -/
def hasUser (m : SlackMessage) : Bool :=
  match m.user with
  | some uid => uid != ""
  | none => false

/-- getUser of sync.js: return the cached user if present; otherwise issue a
users.info request (logged), cache the user on success with dbSynced false,
and return null on a not-ok response or a thrown error without caching
anything. -/
def getUser (env : SlackEnv) (st : SyncState) (userId : String) :
    Option SlackUser × SyncState :=
  match cacheLookup st.usersCache userId with
  | some entry => (some entry.slackUser, st)
  | none =>
    let n := st.userFetchLog.count userId
    let st := { st with userFetchLog := st.userFetchLog ++ [userId] }
    match env.userInfo userId n with
    | .ok u =>
        (some u,
         { st with usersCache :=
             cacheSet st.usersCache userId { slackUser := u, dbSynced := false } })
    | .notOk => (none, st)
    | .thrown => (none, st)

/-- The users-table row sync.js builds from a Slack user object.  display_name
and email come from profile with optional chaining. -/
def userRowOfSlack (u : SlackUser) : UserRow :=
  { id := u.id, team_id := u.team_id, name := u.name, real_name := u.real_name,
    display_name := u.profile.bind (·.display_name),
    email := u.profile.bind (·.email),
    deleted := u.deleted, is_bot := u.is_bot, is_admin := u.is_admin,
    is_owner := u.is_owner, updated := u.updated }

/-- syncUser of sync.js: skip on a missing id or an already dbSynced cache
entry; otherwise read the stored updated counter, upsert the user only when
there is no stored row or the incoming updated counter strictly exceeds the
stored one (with null coalesced to 0, as in dbUser.updated or 0), and mark
the cache entry dbSynced afterward in every case. -/
def syncUser (st : SyncState) (slackUser : SlackUser) : SyncState :=
  if slackUser.id = "" then st
  else
    let skip := match cacheLookup st.usersCache slackUser.id with
      | some e => e.dbSynced
      | none => false
    if skip then st
    else
      let dbUpdated := (findUserRow st.dbUsers slackUser.id).map (·.updated)
      let needsUpdate := match dbUpdated with
        | none => true
        | some stored =>
          match slackUser.updated with
          | none => false
          | some v => decide (v > stored.getD 0)
      let st :=
        if needsUpdate then
          { st with dbUsers := upsertUserRow st.dbUsers (userRowOfSlack slackUser) }
        else st
      let newEntry := match cacheLookup st.usersCache slackUser.id with
        | some e => { e with dbSynced := true }
        | none => { slackUser := slackUser, dbSynced := true }
      { st with usersCache := cacheSet st.usersCache slackUser.id newEntry }

/-- storeMessage of sync.js: resolve the author (getUser, then syncUser on
success) to obtain the denormalized username, then upsert the message row
keyed by channelId dash ts. -/
def storeMessage (env : SlackEnv) (st : SyncState) (message : SlackMessage)
    (channelId channelName : String) : SyncState :=
  let resolved :=
    match message.user with
    | none => ((none : Option String), st)
    | some uid =>
      if uid = "" then (none, st)
      else
        let fetched := getUser env st uid
        match fetched.1 with
        | none => (none, fetched.2)
        | some u => (u.name, syncUser fetched.2 u)
  let username := resolved.1
  let st := resolved.2
  let row : MessageRow :=
    { id := channelId ++ "-" ++ message.ts,
      channel_id := channelId,
      channel_name := channelName,
      user_id := message.user,
      username := username,
      text := message.text.getD "",
      timestampSec := message.tsNum,
      thread_ts := message.thread_ts,
      edited_ts := message.edited_ts }
  { st with dbMessages := upsertMessageRow st.dbMessages row }

/-- The body of the for-loop in syncThreadReplies for one message: skip the
parent (ts equal to threadTs), then store and count the reply if it has an
author. -/
def processReplyMessage (env : SlackEnv)
    (channelId channelName threadTs : String) (m : SlackMessage)
    (st : SyncState) : Nat × SyncState :=
  if m.ts = threadTs then (0, st)
  else if hasUser m then (1, storeMessage env st m channelId channelName)
  else (0, st)

/-- The for-loop of syncThreadReplies over the messages of one page. -/
def processReplyMessages (env : SlackEnv)
    (channelId channelName threadTs : String) (msgs : List SlackMessage)
    (st : SyncState) : Nat × SyncState :=
  match msgs with
  | [] => (0, st)
  | m :: rest =>
    let step := processReplyMessage env channelId channelName threadTs m st
    let tail := processReplyMessages env channelId channelName threadTs rest step.2
    (step.1 + tail.1, tail.2)

/-- The while-hasMore pagination loop of syncThreadReplies: each list element
is one conversations.replies request; a thrown request breaks the loop
(remaining pages untouched); a page with has_more false ends it. -/
def runThreadPages (env : SlackEnv)
    (channelId channelName threadTs : String)
    (pages : List (Except Unit HistoryPage)) (st : SyncState) :
    Nat × SyncState :=
  match pages with
  | [] => (0, st)
  | page :: rest =>
    match page with
    | .error _ => (0, st)
    | .ok result =>
      let step := processReplyMessages env channelId channelName threadTs
        result.messages st
      if result.has_more then
        let tail := runThreadPages env channelId channelName threadTs rest step.2
        (step.1 + tail.1, tail.2)
      else step

/-- syncThreadReplies of sync.js.  One entry is appended to threadFetchLog
per invocation (one thread expansion). -/
def syncThreadReplies (env : SlackEnv)
    (channelId channelName threadTs : String) (st : SyncState) :
    Nat × SyncState :=
  let st := { st with threadFetchLog := st.threadFetchLog ++ [threadTs] }
  runThreadPages env channelId channelName threadTs
    (env.threadPages channelId threadTs) st

/-- The body of the for-loop shared verbatim by recheckRecentMessages and
syncNewMessages in sync.js: messages without an author are skipped entirely;
otherwise the message is stored, counted, and a positive reply_count triggers
one thread expansion whose replies are counted. -/
def processHistoryMessage (env : SlackEnv) (channelId channelName : String)
    (m : SlackMessage) (st : SyncState) : (Nat × Nat) × SyncState :=
  if hasUser m then
    let st := storeMessage env st m channelId channelName
    if m.reply_count.getD 0 > 0 then
      let rep := syncThreadReplies env channelId channelName m.ts st
      ((1, rep.1), rep.2)
    else ((1, 0), st)
  else ((0, 0), st)

/-- The for-loop of the history-window functions over one page of messages,
accumulating (messages stored, replies stored). -/
def processHistoryMessages (env : SlackEnv) (channelId channelName : String)
    (msgs : List SlackMessage) (st : SyncState) : (Nat × Nat) × SyncState :=
  match msgs with
  | [] => ((0, 0), st)
  | m :: rest =>
    let step := processHistoryMessage env channelId channelName m st
    let tail := processHistoryMessages env channelId channelName rest step.2
    ((step.1.1 + tail.1.1, step.1.2 + tail.1.2), tail.2)

/-- The while-hasMore pagination loop shared verbatim by
recheckRecentMessages and syncNewMessages: each list element is one
conversations.history request (logged on historyFetchLog); a thrown request
breaks the loop and everything already persisted stays; a page with has_more
false ends it. -/
def runHistoryPages (env : SlackEnv) (channelId channelName : String)
    (pages : List (Except Unit HistoryPage)) (st : SyncState) :
    (Nat × Nat) × SyncState :=
  match pages with
  | [] => ((0, 0), st)
  | page :: rest =>
    let st := { st with historyFetchLog := st.historyFetchLog ++ [channelId] }
    match page with
    | .error _ => ((0, 0), st)
    | .ok result =>
      let step := processHistoryMessages env channelId channelName
        result.messages st
      if result.has_more then
        let tail := runHistoryPages env channelId channelName rest step.2
        ((step.1.1 + tail.1.1, step.1.2 + tail.1.2), tail.2)
      else step

/-- recheckRecentMessages of sync.js: re-fetch history with oldest set to
now minus daysToRecheck days; returns (updatedMessages, newReplies). -/
def recheckRecentMessages (env : SlackEnv) (now : Int)
    (channelId channelName : String) (daysToRecheck : Int) (st : SyncState) :
    (Nat × Nat) × SyncState :=
  let recheckFrom := now - daysToRecheck * 24 * 60 * 60
  runHistoryPages env channelId channelName
    (env.historyPages channelId recheckFrom) st

/-- syncNewMessages of sync.js: fetch history with oldest set to
fromTimestamp; returns (newMessages, newReplies). -/
def syncNewMessages (env : SlackEnv) (channelId channelName : String)
    (fromTimestamp : Int) (st : SyncState) : (Nat × Nat) × SyncState :=
  runHistoryPages env channelId channelName
    (env.historyPages channelId fromTimestamp) st

/-- getOldestTimestamp of sync.js: the minimum timestamp of the stored
messages of the channel, or null when there are none. -/
def getOldestTimestamp (rows : List MessageRow) (channelId : String) :
    Option Int :=
  match (rows.filter (fun r => r.channel_id == channelId)).map
      (·.timestampSec) with
  | [] => none
  | t :: ts => some (ts.foldl min t)

/-- getLastSyncTime of sync.js: the maximum timestamp of the stored messages
of the channel, defaulting to now minus FULL_SYNC_DAYS days when there are
none. -/
def getLastSyncTime (cfg : EnvConfig) (now : Int) (rows : List MessageRow)
    (channelId : String) : Int :=
  match (rows.filter (fun r => r.channel_id == channelId)).map
      (·.timestampSec) with
  | [] => now - cfg.FULL_SYNC_DAYS * 24 * 60 * 60
  | t :: ts => ts.foldl max t

/-- syncChannel of sync.js: classify the join outcome; channel_not_found and
any unrecognized failure return zero counts without any fetch.  In full-sync
mode fetch from the oldest stored timestamp (JS falsiness: a zero timestamp
falls back) or FULL_SYNC_DAYS ago.  In incremental mode run the recheck
window, then fetch new messages from getLastSyncTime (read after the recheck
persisted its messages, as in the source).  The updatedMessages count of the
recheck is logged but not added to the returned message total. -/
def syncChannel (env : SlackEnv) (cfg : EnvConfig) (now : Int)
    (channelId channelName : String) (joinResult : JoinResult)
    (isFullSync : Bool) (st : SyncState) : (Nat × Nat) × SyncState :=
  match joinResult with
  | .channelNotFound => ((0, 0), st)
  | .otherFailure => ((0, 0), st)
  | _ =>
    if isFullSync then
      let oldest := getOldestTimestamp st.dbMessages channelId
      let fullSyncStart := match oldest with
        | some t => if t ≠ 0 then t else now - cfg.FULL_SYNC_DAYS * 24 * 60 * 60
        | none => now - cfg.FULL_SYNC_DAYS * 24 * 60 * 60
      syncNewMessages env channelId channelName fullSyncStart st
    else
      let recheck := recheckRecentMessages env now channelId channelName
        cfg.RECHECK_DAYS st
      let recheckReplies := recheck.1.2
      let lastSync := getLastSyncTime cfg now recheck.2.dbMessages channelId
      let fresh := syncNewMessages env channelId channelName lastSync recheck.2
      ((fresh.1.1, recheckReplies + fresh.1.2), fresh.2)

/-- The per-channel for-loop of main: every listed channel is processed in
order (a skipped channel still increments channelsProcessed), accumulating
(totalMessages, totalReplies, channelsProcessed). -/
def mainLoop (env : SlackEnv) (cfg : EnvConfig) (now : Int)
    (channels : List ChannelInfo) (isFullSync : Bool) (st : SyncState) :
    (Nat × Nat × Nat) × SyncState :=
  match channels with
  | [] => ((0, 0, 0), st)
  | c :: rest =>
    let channelName := match c.name with
      | some n => if n != "" then n else c.id
      | none => c.id
    let one := syncChannel env cfg now c.id channelName c.joinResult
      isFullSync st
    let tail := mainLoop env cfg now rest isFullSync one.2
    ((one.1.1 + tail.1.1, one.1.2 + tail.1.2.1, 1 + tail.1.2.2), tail.2)

/-- getTodaySyncStatus of sync.js: whether a sync_log row exists for the
current calendar date. -/
def getTodaySyncStatus (rows : List SyncLogRow) (today : String) :
    Bool × Option SyncLogRow :=
  match rows.find? (fun r => r.sync_date == today) with
  | some r => (true, some r)
  | none => (false, none)

/-- recordSyncCompletion of sync.js: upsert the sync_log row keyed by the
calendar date. -/
def recordSyncCompletion (rows : List SyncLogRow) (today : String)
    (completedAt : Int) (tm tr cp : Nat) : List SyncLogRow :=
  let r : SyncLogRow :=
    { sync_date := today, completed_at := completedAt,
      total_messages := tm, total_replies := tr, channels_processed := cp }
  if rows.any (fun x => x.sync_date == today) then
    rows.map (fun x => if x.sync_date == today then r else x)
  else
    rows ++ [r]

/-- main of sync.js: full sync exactly when no sync_log row for today
exists, then the channel loop, then recordSyncCompletion. -/
def mainRun (env : SlackEnv) (cfg : EnvConfig) (now : Int) (today : String)
    (channels : List ChannelInfo) (st : SyncState) :
    (Nat × Nat × Nat × Bool) × SyncState :=
  let status := getTodaySyncStatus st.dbSyncLog today
  let isFullSync := !status.1
  let res := mainLoop env cfg now channels isFullSync st
  let totals := res.1
  let st := res.2
  let st := { st with dbSyncLog :=
    recordSyncCompletion st.dbSyncLog today now totals.1 totals.2.1 totals.2.2 }
  ((totals.1, totals.2.1, totals.2.2, isFullSync), st)

namespace SyncFinal

/-- Modelled from the spec: status of a sync-run row of the run-anchored
sync_log schema (db/20260103-messages-alter-sync-add.sql); the script using
it (src/sync-final.js per src/unnamed/part_000) is absent from src. -/
inductive RunStatus where
  | running
  | completed
  | failed
deriving Repr, DecidableEq

/-- Modelled from the spec: one row of the run-anchored sync_log table.  The
sync_id of the schema is uninterpreted text; it is modelled as a Nat unique within
the ledger. -/
structure RunRow where
  sync_id : Nat
  started_at : Int
  completed_at : Option Int
  status : RunStatus
  total_messages : Nat
  total_replies : Nat
  channels_processed : Nat
deriving Repr, DecidableEq

/-- Modelled from the spec: the SyncWindowPlanner configuration
{bufferHours, fullSyncHorizonDays}, i.e. RECHECK_BUFFER_HOURS and
FULL_SYNC_DAYS of the absent sync-final.js. -/
structure PlanConfig where
  bufferHours : Int
  fullSyncHorizonDays : Int
deriving Repr, DecidableEq

/-- A half-open time range [lo, hi) in epoch seconds. -/
structure Window where
  lo : Int
  hi : Int
deriving Repr, DecidableEq

/-- Modelled from the spec: the output of the SyncWindowPlanner — either the
single initial window, or the optional recheck window plus the new-message
window. -/
inductive SyncPlan where
  | initialPlan (w : Window)
  | incrementalPlan (recheck : Option Window) (newWindow : Window)
deriving Repr, DecidableEq

/-- Whether a plan is the initial (full) one. -/
def SyncPlan.isInitial : SyncPlan → Bool
  | .initialPlan _ => true
  | .incrementalPlan _ _ => false

/-- Modelled from the spec (section 4.2), for the absent sync-final.js: with
no prior successful run the plan is the single window
[now - fullSyncHorizonDays, now); with one, the recheck window is
[runStart - bufferHours, runStart), included only when its start precedes
runStart, and the new window is [max(lastStoredMessageTime, runStart), now)
(runStart alone when no message is stored). -/
def planWindows (cfg : PlanConfig) (now : Int) (lastRun : Option RunRow)
    (lastStored : Option Int) : SyncPlan :=
  match lastRun with
  | none => .initialPlan ⟨now - cfg.fullSyncHorizonDays * 24 * 60 * 60, now⟩
  | some run =>
    let runStart := run.started_at
    let recheckLo := runStart - cfg.bufferHours * 60 * 60
    let recheck := if recheckLo < runStart then
        some (⟨recheckLo, runStart⟩ : Window)
      else none
    let newLo := match lastStored with
      | none => runStart
      | some m => max m runStart
    .incrementalPlan recheck ⟨newLo, now⟩

/-- Modelled from the spec (section 4.3): the ChannelSyncer executes the
recheck window when present, then the new window, sequentially, for each
channel; the initial plan executes its single window. -/
def executedWindows : SyncPlan → List Window
  | .initialPlan w => [w]
  | .incrementalPlan recheck newWindow => recheck.toList ++ [newWindow]

/-- A run id not carried by any row of the ledger: one more than the largest
sync_id present. -/
def freshRunId (ledger : List RunRow) : Nat :=
  (ledger.map (·.sync_id)).foldr (fun a b => max a b) 0 + 1

/-- Modelled from the spec (section 4.1): recordStart creates a run row with
status running and started_at now, returning its fresh id. -/
def recordStart (ledger : List RunRow) (now : Int) : Nat × List RunRow :=
  let runId := freshRunId ledger
  (runId,
   ledger ++ [{ sync_id := runId, started_at := now, completed_at := none,
                status := .running, total_messages := 0, total_replies := 0,
                channels_processed := 0 }])

/-- Modelled from the spec (section 4.1): recordCompletion sets status
completed, completed_at now, and the totals, on the row with the given id. -/
def recordCompletion (ledger : List RunRow) (runId : Nat) (now : Int)
    (tm tr cp : Nat) : List RunRow :=
  ledger.map fun r =>
    if r.sync_id = runId then
      { r with status := .completed, completed_at := some now,
               total_messages := tm, total_replies := tr,
               channels_processed := cp }
    else r

/-- Modelled from the spec (section 4.1): lastSuccessfulRun returns the most
recently completed run — only rows with status completed are eligible,
ordered by completed_at. -/
def lastSuccessfulRun (ledger : List RunRow) : Option RunRow :=
  (ledger.filter (fun r => r.status == RunStatus.completed)).foldl
    (fun best r =>
      match best with
      | none => some r
      | some b => if r.completed_at.getD 0 ≥ b.completed_at.getD 0 then some r
                  else some b)
    none

/-- Outcome of one orchestrator run: the resulting ledger, how many channels
were processed, and whether the run completed. -/
structure RunOutcome where
  ledger : List RunRow
  channelsProcessed : Nat
  ok : Bool
deriving Repr, DecidableEq

/-- Modelled from the spec (section 4.6), for the absent sync-final.js:
run() records the run start (fatal if the store is unreachable — the run
aborts before touching any channel), lists channels (fatal on failure,
leaving the row in running state), processes each channel, and finalizes the
run record exactly once with the aggregated totals.  channelResults are the
per-channel (messages, replies) counts the ChannelSyncer would return. -/
def specRun (startFails listingFails : Bool)
    (channelResults : List (Nat × Nat)) (ledger : List RunRow)
    (startTime endTime : Int) : RunOutcome :=
  if startFails then { ledger := ledger, channelsProcessed := 0, ok := false }
  else
    let started := recordStart ledger startTime
    if listingFails then
      { ledger := started.2, channelsProcessed := 0, ok := false }
    else
      let tm := (channelResults.map (·.1)).sum
      let tr := (channelResults.map (·.2)).sum
      let cp := channelResults.length
      { ledger := recordCompletion started.2 started.1 endTime tm tr cp,
        channelsProcessed := cp, ok := true }

end SyncFinal

/-- A concrete Slack user for witnesses and counterexamples. -/
def uW : SlackUser :=
  { id := "U1", team_id := some "T1", name := some "ada", real_name := none,
    profile := none, deleted := false, is_bot := false, is_admin := false,
    is_owner := false, updated := some 7 }

/-- An oracle whose first users.info request for any id throws and whose
later requests succeed: exhibits the retry after a failed fetch. -/
def envRetry : SlackEnv :=
  { userInfo := fun _ n => if n = 0 then .thrown else .ok uW,
    historyPages := fun _ _ => [],
    threadPages := fun _ _ => [] }

/-- An oracle whose users.info requests always succeed. -/
def envUserOk : SlackEnv :=
  { userInfo := fun _ _ => .ok uW,
    historyPages := fun _ _ => [],
    threadPages := fun _ _ => [] }

/-- The state after one getUser call for U1 against envUserOk. -/
def stAfterFetch : SyncState := (getUser envUserOk emptyState "U1").2

/-- A message with a reply count of 3 but no author user id. -/
def msgNoUser : SlackMessage :=
  { ts := "1700000100.000200", tsNum := 1700000100, user := none,
    text := some "bot text", thread_ts := none, edited_ts := none,
    reply_count := some 3 }

/-- A message with an author and a positive reply count. -/
def msgWithUser : SlackMessage :=
  { ts := "1700000200.000300", tsNum := 1700000200, user := some "U1",
    text := some "hello", thread_ts := none, edited_ts := none,
    reply_count := some 2 }

/-- An oracle whose history endpoint returns one final page holding only
msgNoUser, for the thread-expansion counterexample. -/
def envNoUserPage : SlackEnv :=
  { userInfo := fun _ _ => .ok uW,
    historyPages := fun _ _ =>
      [Except.ok { messages := [msgNoUser], has_more := false }],
    threadPages := fun _ _ =>
      [Except.ok { messages := [], has_more := false }] }

/-- An oracle whose every history request throws, for the
window-failure witness. -/
def envAllFail : SlackEnv :=
  { userInfo := fun _ _ => .thrown,
    historyPages := fun _ _ => [Except.error ()],
    threadPages := fun _ _ => [Except.error ()] }

/-- An empty page that reports more pages to come. -/
def pgMore : HistoryPage := { messages := [], has_more := true }

/-- A channel whose join attempt reports channel_not_found. -/
def chNotFound : ChannelInfo :=
  { id := "C404", name := some "locked", joinResult := .channelNotFound }

/-- A stored user row with updated counter 7. -/
def rowU7 : UserRow :=
  { id := "U1", team_id := some "T1", name := some "ada", real_name := none,
    display_name := none, email := none, deleted := false, is_bot := false,
    is_admin := false, is_owner := false, updated := some 7 }

/-- A state whose users table holds rowU7. -/
def stWithU7 : SyncState := { emptyState with dbUsers := [rowU7] }

/-- A completed run row for the run-mode witness. -/
def rowDone : SyncFinal.RunRow :=
  { sync_id := 1, started_at := 500, completed_at := some 600,
    status := .completed, total_messages := 4, total_replies := 1,
    channels_processed := 2 }

/-- A ledger holding one completed run. -/
def ledgerDone : List SyncFinal.RunRow := [rowDone]

/-- Replacing the entry of a present key and then looking the key up yields
the replacement. -/
theorem cacheLookup_map_replace (userId : String) (e : CacheEntry) :
    ∀ cache : List (String × CacheEntry),
      cache.any (fun p => p.1 == userId) = true →
      cacheLookup (cache.map fun p => if p.1 == userId then (p.1, e) else p)
        userId = some e := by
  intro cache
  induction cache with
  | nil => intro h; simp at h
  | cons p ps ih =>
    intro h
    by_cases hp : (p.1 == userId) = true
    · simp [cacheLookup, List.find?, hp]
    · have hp' : (p.1 == userId) = false := by
        simpa using hp
      have hps : ps.any (fun q => q.1 == userId) = true := by
        rw [List.any_cons, hp'] at h
        simpa using h
      have := ih hps
      simp only [cacheLookup] at this ⊢
      simpa [List.find?, hp'] using this

/-- Appending a key absent from the list and then looking it up yields the
appended entry. -/
theorem cacheLookup_append_absent (userId : String) (e : CacheEntry) :
    ∀ cache : List (String × CacheEntry),
      cache.any (fun p => p.1 == userId) = false →
      cacheLookup (cache ++ [(userId, e)]) userId = some e := by
  intro cache
  induction cache with
  | nil => intro _; simp [cacheLookup, List.find?]
  | cons p ps ih =>
    intro h
    rw [List.any_cons] at h
    have hp : (p.1 == userId) = false := by
      cases hq : (p.1 == userId) <;> simp [hq] at h ⊢
    have hps : ps.any (fun q => q.1 == userId) = false := by
      rw [hp] at h; simpa using h
    have := ih hps
    simp only [cacheLookup] at this ⊢
    simpa [List.find?, hp] using this

/-- Looking up the key just written by cacheSet yields the written entry. -/
theorem cacheLookup_cacheSet_same (cache : List (String × CacheEntry))
    (userId : String) (e : CacheEntry) :
    cacheLookup (cacheSet cache userId e) userId = some e := by
  unfold cacheSet
  by_cases hany : cache.any (fun p => p.1 == userId) = true
  · rw [if_pos hany]
    exact cacheLookup_map_replace userId e cache hany
  · have h' : cache.any (fun p => p.1 == userId) = false := by
      cases hq : cache.any (fun p => p.1 == userId)
      · rfl
      · exact absurd hq hany
    rw [h']
    simp only [Bool.false_eq_true, if_false]
    exact cacheLookup_append_absent userId e cache h'

/-- getUser never touches the thread-expansion log. -/
theorem getUser_threadLog (env : SlackEnv) (st : SyncState) (userId : String) :
    ((getUser env st userId).2).threadFetchLog = st.threadFetchLog := by
  simp only [getUser]
  split
  · rfl
  · split <;> rfl

/-- syncUser never touches the thread-expansion log. -/
theorem syncUser_threadLog (st : SyncState) (u : SlackUser) :
    (syncUser st u).threadFetchLog = st.threadFetchLog := by
  simp only [syncUser]
  split
  · rfl
  · split
    · rfl
    · split <;> rfl

/-- storeMessage never touches the thread-expansion log. -/
theorem storeMessage_threadLog (env : SlackEnv) (st : SyncState)
    (m : SlackMessage) (ch cn : String) :
    (storeMessage env st m ch cn).threadFetchLog = st.threadFetchLog := by
  unfold storeMessage
  cases hu : m.user with
  | none => rfl
  | some uid =>
    by_cases hid : uid = ""
    · simp [hid]
    · simp only [hid, if_false]
      cases hg : (getUser env st uid).1 with
      | none => simpa using getUser_threadLog env st uid
      | some u =>
        simp only []
        rw [syncUser_threadLog]
        simpa using getUser_threadLog env st uid

/-- The reply-page loop never touches the thread-expansion log. -/
theorem processReplyMessages_threadLog (env : SlackEnv)
    (ch cn tTs : String) :
    ∀ (msgs : List SlackMessage) (st : SyncState),
      (processReplyMessages env ch cn tTs msgs st).2.threadFetchLog
        = st.threadFetchLog := by
  intro msgs
  induction msgs with
  | nil => intro st; rfl
  | cons m rest ih =>
    intro st
    simp only [processReplyMessages]
    rw [ih]
    unfold processReplyMessage
    by_cases hts : m.ts = tTs
    · simp [hts]
    · simp only [hts, if_false]
      by_cases hu : hasUser m
      · simp [hu, storeMessage_threadLog]
      · simp [hu]

/-- The thread pagination loop never touches the thread-expansion log. -/
theorem runThreadPages_threadLog (env : SlackEnv) (ch cn tTs : String) :
    ∀ (pages : List (Except Unit HistoryPage)) (st : SyncState),
      (runThreadPages env ch cn tTs pages st).2.threadFetchLog
        = st.threadFetchLog := by
  intro pages
  induction pages with
  | nil => intro st; rfl
  | cons page rest ih =>
    intro st
    cases page with
    | error e => rfl
    | ok result =>
      cases hm : result.has_more
      · simp [runThreadPages, hm, processReplyMessages_threadLog]
      · simp [runThreadPages, hm, processReplyMessages_threadLog, ih]

/-- Every member of a Nat list is at most its right max fold. -/
theorem mem_le_foldrMax (xs : List Nat) (x : Nat) (hx : x ∈ xs) :
    x ≤ xs.foldr (fun a b => max a b) 0 := by
  induction xs with
  | nil => cases hx
  | cons y ys ih =>
    rcases List.mem_cons.mp hx with h | h
    · subst h; exact le_max_left _ _
    · exact le_trans (ih h) (le_max_right _ _)

/-- Every row of a ledger has a sync_id strictly below the fresh one. -/
theorem sync_id_lt_freshRunId (ledger : List SyncFinal.RunRow)
    (r : SyncFinal.RunRow) (hr : r ∈ ledger) :
    r.sync_id < SyncFinal.freshRunId ledger := by
  have : r.sync_id ≤ (ledger.map (·.sync_id)).foldr (fun a b => max a b) 0 :=
    mem_le_foldrMax _ _ (List.mem_map_of_mem _ hr)
  unfold SyncFinal.freshRunId
  omega

/-- recordCompletion leaves a ledger with no matching id unchanged. -/
theorem recordCompletion_id_of_ne (runId : Nat) (n : Int) (tm tr cp : Nat) :
    ∀ L : List SyncFinal.RunRow, (∀ r ∈ L, r.sync_id ≠ runId) →
      SyncFinal.recordCompletion L runId n tm tr cp = L := by
  intro L
  induction L with
  | nil => intro _; rfl
  | cons r rs ih =>
    intro h
    have hr : r.sync_id ≠ runId := h r (List.mem_cons_self r rs)
    have hrs : ∀ x ∈ rs, x.sync_id ≠ runId :=
      fun x hx => h x (List.mem_cons_of_mem r hx)
    simp only [SyncFinal.recordCompletion, List.map_cons, if_neg hr]
    have := ih hrs
    simp only [SyncFinal.recordCompletion] at this
    rw [this]

/-- recordCompletion distributes over append. -/
theorem recordCompletion_append (l₁ l₂ : List SyncFinal.RunRow)
    (runId : Nat) (n : Int) (tm tr cp : Nat) :
    SyncFinal.recordCompletion (l₁ ++ l₂) runId n tm tr cp
      = SyncFinal.recordCompletion l₁ runId n tm tr cp
        ++ SyncFinal.recordCompletion l₂ runId n tm tr cp := by
  simp [SyncFinal.recordCompletion, List.map_append]

/-- Any specRun outcome preserves the pre-existing prefix of the ledger
verbatim: prior run records are never written to. -/
theorem specRun_preserves_prior (sf lf : Bool)
    (res : List (Nat × Nat)) (L : List SyncFinal.RunRow) (t₁ t₂ : Int) :
    (SyncFinal.specRun sf lf res L t₁ t₂).ledger.take L.length = L := by
  cases sf with
  | true => simp [SyncFinal.specRun, List.take_length]
  | false =>
    cases lf with
    | true =>
      simp only [SyncFinal.specRun, Bool.false_eq_true, if_false, if_true,
        SyncFinal.recordStart]
      exact List.take_left L _
    | false =>
      simp only [SyncFinal.specRun, Bool.false_eq_true, if_false,
        SyncFinal.recordStart]
      rw [recordCompletion_append]
      rw [recordCompletion_id_of_ne _ _ _ _ _ _
        (fun r hr => Nat.ne_of_lt (sync_id_lt_freshRunId L r hr))]
      exact List.take_left L _

/-- C1: with no prior successful run the planner produces the single
initial window [now - fullSyncHorizonDays, now) — with a 90-day horizon,
exactly [now - 90d, now) — and that is the only window executed; with a
prior successful run the plan is not the initial one (the run is
incremental).  The orchestrator passes lastSuccessfulRun of the ledger to
the planner. -/
theorem planWindows_mode_selection (cfg : SyncFinal.PlanConfig) (now : Int)
    (lastStored : Option Int) (ledger : List SyncFinal.RunRow) :
    (SyncFinal.lastSuccessfulRun ledger = none →
      SyncFinal.planWindows cfg now (SyncFinal.lastSuccessfulRun ledger)
          lastStored
        = .initialPlan ⟨now - cfg.fullSyncHorizonDays * 24 * 60 * 60, now⟩ ∧
      SyncFinal.executedWindows (SyncFinal.planWindows cfg now
          (SyncFinal.lastSuccessfulRun ledger) lastStored)
        = [⟨now - cfg.fullSyncHorizonDays * 24 * 60 * 60, now⟩]) ∧
    (cfg.fullSyncHorizonDays = 90 → SyncFinal.lastSuccessfulRun ledger = none →
      SyncFinal.planWindows cfg now (SyncFinal.lastSuccessfulRun ledger)
          lastStored
        = .initialPlan ⟨now - 7776000, now⟩) ∧
    (∀ run, SyncFinal.lastSuccessfulRun ledger = some run →
      (SyncFinal.planWindows cfg now (SyncFinal.lastSuccessfulRun ledger)
          lastStored).isInitial = false) := by
  refine ⟨fun h => ?_, fun h90 h => ?_, fun run h => ?_⟩
  · rw [h]
    exact ⟨rfl, rfl⟩
  · rw [h]
    simp only [SyncFinal.planWindows, h90]
    norm_num
  · rw [h]
    simp [SyncFinal.planWindows, SyncFinal.SyncPlan.isInitial]

/-- Witness for planWindows_mode_selection: an empty ledger has no
successful run and yields the single 90-day window; a ledger with one
completed run yields a non-initial plan. -/
theorem planWindows_mode_selection_witness :
    (SyncFinal.planWindows ⟨24, 90⟩ 1000000000
        (SyncFinal.lastSuccessfulRun []) none
      = .initialPlan ⟨1000000000 - 7776000, 1000000000⟩) ∧
    ((SyncFinal.planWindows ⟨24, 90⟩ 1000000000
        (SyncFinal.lastSuccessfulRun ledgerDone) none).isInitial = false) :=
  ⟨(planWindows_mode_selection ⟨24, 90⟩ 1000000000 none []).2.1 rfl rfl,
   (planWindows_mode_selection ⟨24, 90⟩ 1000000000 none ledgerDone).2.2
     rowDone (by decide)⟩

/-- C2: with a 24-hour buffer and a prior run started at T, the plan always
contains the recheck window [T - 24h, T), it is executed first, and the
window depends only on started_at — now and the completed_at of the run are
universally quantified and absent from it. -/
theorem recheck_window_anchored_on_run_start (now : Int)
    (run : SyncFinal.RunRow) (lastStored : Option Int) (horizonDays : Int) :
    ∃ nw, SyncFinal.planWindows ⟨24, horizonDays⟩ now (some run) lastStored
        = .incrementalPlan
            (some ⟨run.started_at - 86400, run.started_at⟩) nw ∧
      SyncFinal.executedWindows
          (SyncFinal.planWindows ⟨24, horizonDays⟩ now (some run) lastStored)
        = [⟨run.started_at - 86400, run.started_at⟩, nw] := by
  refine ⟨⟨match lastStored with
           | none => run.started_at
           | some m => max m run.started_at, now⟩, ?_, ?_⟩
  · simp only [SyncFinal.planWindows]
    rw [if_pos (by omega)]
    norm_num
  · simp only [SyncFinal.planWindows]
    rw [if_pos (by omega)]
    simp only [SyncFinal.executedWindows, Option.toList_some]
    norm_num

/-- C3: with a prior run started at T and latest stored message timestamp M,
the new-message window is exactly [max(M, T), now), and it is the last
window executed. -/
theorem new_window_lower_bound (cfg : SyncFinal.PlanConfig) (now M : Int)
    (run : SyncFinal.RunRow) :
    ∃ rw, SyncFinal.planWindows cfg now (some run) (some M)
        = .incrementalPlan rw ⟨max M run.started_at, now⟩ ∧
      SyncFinal.executedWindows
          (SyncFinal.planWindows cfg now (some run) (some M))
        = rw.toList ++ [⟨max M run.started_at, now⟩] :=
  ⟨_, rfl, rfl⟩

/-- C4: recordStart appends a fresh row with status running; when it fails
the run aborts with zero channels processed and an untouched ledger; a
successful run finalizes exactly its own row (appended, completed, with the
aggregate totals and completion time) and leaves every pre-existing row
verbatim; and any later run leaves a finalized record verbatim, so two runs
never write the same record. -/
theorem run_ledger_lifecycle (channelResults : List (Nat × Nat))
    (ledger : List SyncFinal.RunRow) (t₁ t₂ : Int) :
    ((SyncFinal.recordStart ledger t₁).2
      = ledger ++ [{ sync_id := SyncFinal.freshRunId ledger, started_at := t₁,
                     completed_at := none, status := .running,
                     total_messages := 0, total_replies := 0,
                     channels_processed := 0 }]) ∧
    (∀ lf, SyncFinal.specRun true lf channelResults ledger t₁ t₂
      = { ledger := ledger, channelsProcessed := 0, ok := false }) ∧
    (SyncFinal.specRun false false channelResults ledger t₁ t₂
      = { ledger := ledger ++
            [{ sync_id := SyncFinal.freshRunId ledger, started_at := t₁,
               completed_at := some t₂, status := .completed,
               total_messages := (channelResults.map (·.1)).sum,
               total_replies := (channelResults.map (·.2)).sum,
               channels_processed := channelResults.length }],
          channelsProcessed := channelResults.length, ok := true }) ∧
    (∀ sf lf, (SyncFinal.specRun sf lf channelResults ledger t₁ t₂).ledger.take
        ledger.length = ledger) ∧
    (∀ sf lf res₂ t₃ t₄,
      (SyncFinal.specRun sf lf res₂
          (SyncFinal.specRun false false channelResults ledger t₁ t₂).ledger
          t₃ t₄).ledger.take
        (SyncFinal.specRun false false channelResults ledger t₁ t₂).ledger.length
      = (SyncFinal.specRun false false channelResults ledger t₁ t₂).ledger) := by
  refine ⟨rfl, fun lf => rfl, ?_, fun sf lf => specRun_preserves_prior _ _ _ _ _ _,
    fun sf lf res₂ t₃ t₄ => specRun_preserves_prior _ _ _ _ _ _⟩
  simp only [SyncFinal.specRun, Bool.false_eq_true, if_false,
    SyncFinal.recordStart]
  rw [recordCompletion_append]
  rw [recordCompletion_id_of_ne _ _ _ _ _ _
    (fun r hr => Nat.ne_of_lt (sync_id_lt_freshRunId ledger r hr))]
  simp [SyncFinal.recordCompletion]

/-- Skipping lemma: a message without an author contributes nothing in the
history-window loop body. -/
theorem processHistoryMessage_skip (env : SlackEnv) (ch cn : String)
    (m : SlackMessage) (st : SyncState) (h : hasUser m = false) :
    processHistoryMessage env ch cn m st = ((0, 0), st) := by
  simp [processHistoryMessage, h]

/-- Skipping lemma: a message without an author contributes nothing in the
thread-replies loop body. -/
theorem processReplyMessage_skip (env : SlackEnv) (ch cn tTs : String)
    (m : SlackMessage) (st : SyncState) (h : hasUser m = false) :
    processReplyMessage env ch cn tTs m st = (0, st) := by
  by_cases hts : m.ts = tTs
  · simp [processReplyMessage, hts]
  · simp [processReplyMessage, hts, h]

/-- Dropping the author-less messages from a page changes nothing in the
history-window loop. -/
theorem processHistoryMessages_filter (env : SlackEnv) (ch cn : String) :
    ∀ (msgs : List SlackMessage) (st : SyncState),
      processHistoryMessages env ch cn msgs st
        = processHistoryMessages env ch cn
            (msgs.filter (fun m => hasUser m)) st := by
  intro msgs
  induction msgs with
  | nil => intro st; rfl
  | cons m rest ih =>
    intro st
    cases hu : hasUser m
    · simp only [List.filter_cons, hu, Bool.false_eq_true, if_false]
      simp only [processHistoryMessages]
      rw [processHistoryMessage_skip env ch cn m st hu]
      simp [← ih]
    · simp only [List.filter_cons, hu, if_true]
      simp only [processHistoryMessages]
      rw [ih]

/-- Dropping the author-less messages from a page changes nothing in the
thread-replies loop. -/
theorem processReplyMessages_filter (env : SlackEnv) (ch cn tTs : String) :
    ∀ (msgs : List SlackMessage) (st : SyncState),
      processReplyMessages env ch cn tTs msgs st
        = processReplyMessages env ch cn tTs
            (msgs.filter (fun m => hasUser m)) st := by
  intro msgs
  induction msgs with
  | nil => intro st; rfl
  | cons m rest ih =>
    intro st
    cases hu : hasUser m
    · simp only [List.filter_cons, hu, Bool.false_eq_true, if_false]
      simp only [processReplyMessages]
      rw [processReplyMessage_skip env ch cn tTs m st hu]
      simp [← ih]
    · simp only [List.filter_cons, hu, if_true]
      simp only [processReplyMessages]
      rw [ih]

/-- A pagination run over a prefix of complete pages followed by a failing
request equals the run over the prefix alone, except for the one failed
request on the log: the loop breaks, later pages are never consumed, and
everything persisted for the prefix is retained. -/
theorem runHistoryPages_break_after_prefix (env : SlackEnv) (ch cn : String)
    (rest : List (Except Unit HistoryPage)) :
    ∀ (pre : List HistoryPage) (st : SyncState),
      (∀ p ∈ pre, p.has_more = true) →
      runHistoryPages env ch cn
          (pre.map Except.ok ++ Except.error () :: rest) st
        = ((runHistoryPages env ch cn (pre.map Except.ok) st).1,
           { (runHistoryPages env ch cn (pre.map Except.ok) st).2 with
             historyFetchLog :=
               (runHistoryPages env ch cn
                 (pre.map Except.ok) st).2.historyFetchLog ++ [ch] }) := by
  intro pre
  induction pre with
  | nil => intro st _; rfl
  | cons p ps ih =>
    intro st h
    have hm : p.has_more = true := h p (List.mem_cons_self p ps)
    have hps : ∀ q ∈ ps, q.has_more = true :=
      fun q hq => h q (List.mem_cons_of_mem p hq)
    simp only [List.map_cons, List.cons_append, runHistoryPages, hm, if_true,
      List.append_eq]
    rw [ih _ hps]

/-- C5: syncUser never overwrites a stored user whose updated counter is
greater than or equal to the incoming one, and any change to the users table
happens only when no row for the id exists or the incoming counter strictly
exceeds the stored one. -/
theorem syncUser_monotonic_updated (st : SyncState) (u : SlackUser) :
    (∀ row, findUserRow st.dbUsers u.id = some row →
      u.updated.getD 0 ≤ row.updated.getD 0 →
      (syncUser st u).dbUsers = st.dbUsers) ∧
    ((syncUser st u).dbUsers ≠ st.dbUsers →
      findUserRow st.dbUsers u.id = none ∨
      ∃ row, findUserRow st.dbUsers u.id = some row ∧
        row.updated.getD 0 < u.updated.getD 0) := by
  constructor
  · intro row hrow hle
    simp only [syncUser]
    split
    · rfl
    · split
      · rfl
      · split
        case isTrue hcond =>
          exfalso
          rw [hrow] at hcond
          rcases hu : u.updated with _ | v
          · rw [hu] at hcond
            simp at hcond
          · rw [hu] at hcond
            simp at hcond
            rw [hu] at hle
            simp at hle
            omega
        case isFalse hcond => rfl
  · intro hne
    simp only [syncUser] at hne
    split at hne
    · exact absurd rfl hne
    · split at hne
      · exact absurd rfl hne
      · split at hne
        case isTrue hcond =>
          cases hrow : findUserRow st.dbUsers u.id with
          | none => exact Or.inl rfl
          | some row =>
            refine Or.inr ⟨row, rfl, ?_⟩
            rw [hrow] at hcond
            rcases hu : u.updated with _ | v
            · rw [hu] at hcond
              simp at hcond
            · rw [hu] at hcond
              simp at hcond
              simp [hu]
              omega
        case isFalse hcond => exact absurd rfl hne

/-- Witness for syncUser_monotonic_updated: a stored user with counter 7 is
not overwritten by an incoming profile with the same counter 7. -/
theorem syncUser_monotonic_updated_witness :
    (syncUser stWithU7 uW).dbUsers = stWithU7.dbUsers :=
  (syncUser_monotonic_updated stWithU7 uW).1 rowU7 (by decide) (by decide)

/-- C6 (amended): after a getUser call that returns a user, a second call
for the same id returns the same user and changes nothing — in particular it
issues no further users.info request — while a getUser call that returns
null leaves the cache untouched, so a later call for that id fetches
again. -/
theorem getUser_cache_after_success (env : SlackEnv) (st : SyncState)
    (userId : String) :
    (∀ u st₁, getUser env st userId = (some u, st₁) →
      getUser env st₁ userId = (some u, st₁)) ∧
    (∀ st₁, getUser env st userId = (none, st₁) →
      st₁.usersCache = st.usersCache) := by
  constructor
  · intro u st₁ h
    simp only [getUser] at h
    cases hc : cacheLookup st.usersCache userId with
    | some e =>
      rw [hc] at h
      simp only [Prod.mk.injEq, Option.some.injEq] at h
      obtain ⟨hu, hst⟩ := h
      subst hu
      subst hst
      simp only [getUser, hc]
    | none =>
      rw [hc] at h
      cases ho : env.userInfo userId (st.userFetchLog.count userId) with
      | ok u' =>
        rw [ho] at h
        simp only [Prod.mk.injEq, Option.some.injEq] at h
        obtain ⟨hu, hst⟩ := h
        subst hst
        rw [← hu]
        simp [getUser, cacheLookup_cacheSet_same]
      | notOk =>
        rw [ho] at h
        simp at h
      | thrown =>
        rw [ho] at h
        simp at h
  · intro st₁ h
    simp only [getUser] at h
    cases hc : cacheLookup st.usersCache userId with
    | some e =>
      rw [hc] at h
      simp at h
    | none =>
      rw [hc] at h
      cases ho : env.userInfo userId (st.userFetchLog.count userId) with
      | ok u' =>
        rw [ho] at h
        simp at h
      | notOk =>
        rw [ho] at h
        simp only [Prod.mk.injEq] at h
        rw [← h.2]
      | thrown =>
        rw [ho] at h
        simp only [Prod.mk.injEq] at h
        rw [← h.2]

/-- Witness for getUser_cache_after_success: against an oracle that always
succeeds, a second call for U1 after a successful first call changes
nothing. -/
theorem getUser_cache_after_success_witness :
    getUser envUserOk stAfterFetch "U1" = (some uW, stAfterFetch) :=
  (getUser_cache_after_success envUserOk emptyState "U1").1 uW stAfterFetch
    rfl

/-- C6 counterexample: against an oracle whose first users.info request for
U1 throws and whose second succeeds, the first getUser call returns null and
the second getUser call for the same id issues a second fetch — two fetches
for one id within the run, and the failed fetch is retried. -/
theorem getUser_failed_fetch_retried_cx :
    (getUser envRetry emptyState "U1").1 = none ∧
    (getUser envRetry (getUser envRetry emptyState "U1").2 "U1").1
      = some uW ∧
    ((getUser envRetry (getUser envRetry emptyState "U1").2 "U1").2).userFetchLog
      = ["U1", "U1"] := by
  refine ⟨rfl, rfl, rfl⟩

/-- C7: a page request that fails mid-stream aborts only the current
pagination loop — the run over complete pages followed by a failing request
equals the run over those pages alone (everything persisted for them is
retained, later pages are never consumed) plus the one failed request on the
log; and a recheck window that fails on its first request does not prevent
the new-message window of the same channel from executing in full. -/
theorem fetch_failure_aborts_window_only :
    (∀ (env : SlackEnv) (ch cn : String)
        (rest : List (Except Unit HistoryPage)) (pre : List HistoryPage)
        (st : SyncState),
      (∀ p ∈ pre, p.has_more = true) →
      runHistoryPages env ch cn
          (pre.map Except.ok ++ Except.error () :: rest) st
        = ((runHistoryPages env ch cn (pre.map Except.ok) st).1,
           { (runHistoryPages env ch cn (pre.map Except.ok) st).2 with
             historyFetchLog :=
               (runHistoryPages env ch cn
                 (pre.map Except.ok) st).2.historyFetchLog ++ [ch] })) ∧
    (∀ (env : SlackEnv) (cfg : EnvConfig) (now : Int) (ch cn : String)
        (st : SyncState) (tail : List (Except Unit HistoryPage)),
      env.historyPages ch (now - cfg.RECHECK_DAYS * 24 * 60 * 60)
        = Except.error () :: tail →
      syncChannel env cfg now ch cn .joined false st
        = (((syncNewMessages env ch cn
              (getLastSyncTime cfg now st.dbMessages ch)
              { st with historyFetchLog := st.historyFetchLog ++ [ch] }).1.1,
            (syncNewMessages env ch cn
              (getLastSyncTime cfg now st.dbMessages ch)
              { st with historyFetchLog := st.historyFetchLog ++ [ch] }).1.2),
           (syncNewMessages env ch cn
              (getLastSyncTime cfg now st.dbMessages ch)
              { st with historyFetchLog := st.historyFetchLog ++ [ch] }).2)) := by
  constructor
  · intro env ch cn rest pre st h
    exact runHistoryPages_break_after_prefix env ch cn rest pre st h
  · intro env cfg now ch cn st tail h
    simp only [syncChannel, recheckRecentMessages, h, runHistoryPages,
      Bool.false_eq_true, if_false]
    simp

/-- Witness for fetch_failure_aborts_window_only: one complete page followed
by a failing request, and a channel whose recheck window fails
immediately. -/
theorem fetch_failure_aborts_window_only_witness :
    (runHistoryPages envAllFail "CH1" "general"
        ([pgMore].map Except.ok ++ Except.error () :: []) emptyState
      = ((runHistoryPages envAllFail "CH1" "general"
            ([pgMore].map Except.ok) emptyState).1,
         { (runHistoryPages envAllFail "CH1" "general"
              ([pgMore].map Except.ok) emptyState).2 with
           historyFetchLog :=
             (runHistoryPages envAllFail "CH1" "general"
               ([pgMore].map Except.ok) emptyState).2.historyFetchLog
               ++ ["CH1"] })) ∧
    (syncChannel envAllFail {} 1000 "CH1" "general" .joined false emptyState
      = (((syncNewMessages envAllFail "CH1" "general"
            (getLastSyncTime {} 1000 emptyState.dbMessages "CH1")
            { emptyState with historyFetchLog :=
                emptyState.historyFetchLog ++ ["CH1"] }).1.1,
          (syncNewMessages envAllFail "CH1" "general"
            (getLastSyncTime {} 1000 emptyState.dbMessages "CH1")
            { emptyState with historyFetchLog :=
                emptyState.historyFetchLog ++ ["CH1"] }).1.2),
         (syncNewMessages envAllFail "CH1" "general"
            (getLastSyncTime {} 1000 emptyState.dbMessages "CH1")
            { emptyState with historyFetchLog :=
                emptyState.historyFetchLog ++ ["CH1"] }).2)) :=
  ⟨fetch_failure_aborts_window_only.1 envAllFail "CH1" "general" [] [pgMore]
      emptyState (by decide),
   fetch_failure_aborts_window_only.2 envAllFail {} 1000 "CH1" "general"
      emptyState [] rfl⟩

/-- C8: a channel whose join attempt reports channel_not_found or any other
unrecognized failure yields zero counts with a completely untouched state
(no history or thread request is issued), and the channel loop of main goes
on to process the remaining channels, counting the skipped channel as
processed. -/
theorem join_failure_skips_channel :
    (∀ (env : SlackEnv) (cfg : EnvConfig) (now : Int) (ch cn : String)
        (isFull : Bool) (st : SyncState),
      syncChannel env cfg now ch cn .channelNotFound isFull st
        = ((0, 0), st)) ∧
    (∀ (env : SlackEnv) (cfg : EnvConfig) (now : Int) (ch cn : String)
        (isFull : Bool) (st : SyncState),
      syncChannel env cfg now ch cn .otherFailure isFull st
        = ((0, 0), st)) ∧
    (∀ (env : SlackEnv) (cfg : EnvConfig) (now : Int) (c : ChannelInfo)
        (rest : List ChannelInfo) (isFull : Bool) (st : SyncState),
      c.joinResult = .channelNotFound ∨ c.joinResult = .otherFailure →
      mainLoop env cfg now (c :: rest) isFull st
        = (((mainLoop env cfg now rest isFull st).1.1,
            (mainLoop env cfg now rest isFull st).1.2.1,
            1 + (mainLoop env cfg now rest isFull st).1.2.2),
           (mainLoop env cfg now rest isFull st).2)) := by
  refine ⟨fun env cfg now ch cn isFull st => rfl,
          fun env cfg now ch cn isFull st => rfl, ?_⟩
  intro env cfg now c rest isFull st h
  rcases h with h | h <;> simp [mainLoop, h, syncChannel]

/-- Witness for join_failure_skips_channel: a single not-found channel is
skipped with zero totals while still counted as processed. -/
theorem join_failure_skips_channel_witness :
    mainLoop envAllFail {} 1000 [chNotFound] false emptyState
      = (((mainLoop envAllFail {} 1000 [] false emptyState).1.1,
          (mainLoop envAllFail {} 1000 [] false emptyState).1.2.1,
          1 + (mainLoop envAllFail {} 1000 [] false emptyState).1.2.2),
         (mainLoop envAllFail {} 1000 [] false emptyState).2) :=
  join_failure_skips_channel.2.2 envAllFail {} 1000 chNotFound [] false
    emptyState (Or.inl rfl)

/-- C9 (amended): in the thread-replies loop the message whose timestamp
equals the parent timestamp contributes nothing (it is never persisted or
counted as a reply), and a fetched message that has an author user id and a
positive reply count triggers exactly one thread-replies expansion, recorded
for exactly its timestamp. -/
theorem thread_parent_excluded_single_expansion (env : SlackEnv)
    (ch cn tTs : String) (m : SlackMessage) (st : SyncState) :
    (m.ts = tTs → processReplyMessage env ch cn tTs m st = (0, st)) ∧
    (hasUser m = true → m.reply_count.getD 0 > 0 →
      (processHistoryMessage env ch cn m st).2.threadFetchLog
        = st.threadFetchLog ++ [m.ts]) := by
  constructor
  · intro h
    simp [processReplyMessage, h]
  · intro hu hrc
    simp only [processHistoryMessage, hu, if_true]
    rw [if_pos hrc]
    simp only [syncThreadReplies]
    rw [runThreadPages_threadLog]
    simp [storeMessage_threadLog]

/-- Witness for thread_parent_excluded_single_expansion: the parent message
itself is skipped by the replies loop, and a message with an author and
reply count 2 records exactly one expansion for its timestamp. -/
theorem thread_parent_excluded_single_expansion_witness :
    processReplyMessage envNoUserPage "CH1" "general" msgWithUser.ts
        msgWithUser emptyState = (0, emptyState) ∧
    (processHistoryMessage envNoUserPage "CH1" "general" msgWithUser
        emptyState).2.threadFetchLog
      = emptyState.threadFetchLog ++ [msgWithUser.ts] :=
  ⟨(thread_parent_excluded_single_expansion envNoUserPage "CH1" "general"
      msgWithUser.ts msgWithUser emptyState).1 rfl,
   (thread_parent_excluded_single_expansion envNoUserPage "CH1" "general"
      msgWithUser.ts msgWithUser emptyState).2 (by decide) (by decide)⟩

/-- C9 counterexample: a fetched message with reply count 3 but no author
user id triggers no thread-replies expansion at all — the whole window run
ends with an empty expansion log and zero counts, refuting that every
fetched message with positive reply count triggers exactly one expansion. -/
theorem thread_expansion_userless_cx :
    msgNoUser.user = none ∧ msgNoUser.reply_count = some 3 ∧
    (syncNewMessages envNoUserPage "CH1" "general" 0
        emptyState).2.threadFetchLog = [] ∧
    (syncNewMessages envNoUserPage "CH1" "general" 0 emptyState).1
      = (0, 0) :=
  ⟨rfl, rfl, rfl, rfl⟩

/-- C10: in the history-window loop (shared verbatim by the recheck and
new-message windows) and in the thread-replies loop, messages without an
author user id can be deleted from the input without changing anything:
they are never persisted, never counted, and never trigger an expansion,
whatever their reply count. -/
theorem userless_messages_skipped (env : SlackEnv) (ch cn tTs : String)
    (msgs : List SlackMessage) (st : SyncState) :
    processHistoryMessages env ch cn msgs st
      = processHistoryMessages env ch cn
          (msgs.filter (fun m => hasUser m)) st ∧
    processReplyMessages env ch cn tTs msgs st
      = processReplyMessages env ch cn tTs
          (msgs.filter (fun m => hasUser m)) st :=
  ⟨processHistoryMessages_filter env ch cn msgs st,
   processReplyMessages_filter env ch cn tTs msgs st⟩
